import Mathlib

/-
Shallow embedding of the todo-list application.

Server: src/todo-list/server.js — an Express app over a MongoDB (Mongoose)
collection of Todo documents, with four handlers (GET /todos, POST /todos,
PUT /todos/:id, DELETE /todos/:id) plus an error-handling middleware.

Client: src/todo-list/js/main.js — TodoManager, a cache of the last-fetched
collection; we embed toggleTodoStatus, which flips a cached task's status
through the PUT handler.

Modelling conventions:
* A stored document is a `Todo`; the Mongo collection is a `Store` (a list).
* Dates are `Int` (milliseconds since epoch, as JS Date time values).
  A request field holding a date STRING is embedded already paired with its
  `new Date(...)` parse: `Option Int`, `none` standing for Invalid Date.
* A request body field that may be absent is an outer `Option`:
  `none` = the field is `undefined` in `req.body`.
* Storage failures (MongoDB unreachable etc.) are injected through a
  `storageFail : Option String` argument: `some msg` means the awaited
  storage call throws an error whose `.message` is `msg`.
* Fresh ObjectIds and clock readings (`freshId`, `now`) are arguments.
-/

namespace TodoApp

/-- One Mongoose `Todo` document: `_id`, the three schema paths `task`,
`dueDate`, `status`, and the `timestamps : true` fields. -/
structure Todo where
  id : String
  task : String
  dueDate : Int
  status : String
  createdAt : Nat
  updatedAt : Nat
deriving Repr, DecidableEq

/-- The MongoDB collection backing the `Todo` model. -/
structure Store where
  todos : List Todo
deriving Repr, DecidableEq

/-- Hexadecimal digit test for ObjectId strings. -/
def isHexChar (c : Char) : Bool :=
  c.isDigit || (97 ≤ c.toNat && c.toNat ≤ 102) || (65 ≤ c.toNat && c.toNat ≤ 70)

/-- `mongoose.Types.ObjectId.isValid` on a string: a 24-character hex string,
or any 12-character string (castable as 12 bytes). -/
def isValidId (s : String) : Bool :=
  (s.length == 24 && s.data.all isHexChar) || s.length == 12

/-- The JSON payload shapes this server sends. Error payloads carry the
`message` field, the optional field-level `details` object of the POST 400
response (per-field messages for `task` and `dueDate`), and the optional
`error` detail attached by the catch blocks and the error middleware. -/
inductive RespBody where
  | todoList (ts : List Todo)
  | todoItem (t : Todo)
  | deleteOk (message : String) (deletedTodo : Todo)
  | error (message : String) (details : Option (Option String × Option String))
      (errDetail : Option String)
deriving Repr, DecidableEq

/-- An HTTP response: status code plus JSON body. -/
structure Response where
  status : Nat
  body : RespBody
deriving Repr, DecidableEq

/-- Body of POST /todos. `task` is `none` when absent. `dueDate` is `none`
when absent OR the empty string (both falsy, and indistinguishable to this
handler); `some p` is a non-empty date string with parse result `p`. -/
structure CreateBody where
  task : Option String
  dueDate : Option (Option Int)
deriving Repr, DecidableEq

/-- JS `String.prototype.trim`: strip leading and trailing whitespace. -/
def jsTrim (s : String) : String :=
  String.mk (((s.data.dropWhile Char.isWhitespace).reverse.dropWhile
    Char.isWhitespace).reverse)

/-- JS truthiness test `!task` on the POST body: absent or empty string. -/
def taskFalsy (b : CreateBody) : Bool :=
  match b.task with
  | none => true
  | some t => t == ""

/-- JS truthiness test `!dueDate` on the POST body. -/
def dueFalsy (b : CreateBody) : Bool :=
  b.dueDate.isNone

/-- Comparator of `.sort({ dueDate: 1, createdAt: -1 })`: ascending dueDate,
ties broken by descending createdAt. -/
def todoLE (a b : Todo) : Bool :=
  a.dueDate < b.dueDate || (a.dueDate == b.dueDate && b.createdAt ≤ a.createdAt)

/-- The sorted view MongoDB returns for `Todo.find().sort(...)`. -/
def sortTodos (l : List Todo) : List Todo :=
  l.mergeSort todoLE

/-- GET /todos handler (server.js lines 59-70): on success, 200 with the
sorted collection; if the storage call throws, 500 with the error message. -/
def getTodos (s : Store) (storageFail : Option String) : Response :=
  match storageFail with
  | some msg => { status := 500, body := .error msg none none }
  | none => { status := 200, body := .todoList (sortTodos s.todos) }

/-- POST /todos handler (server.js lines 73-102). Falsy task or dueDate
gives 400 with field details; otherwise a document is built from the trimmed
task and parsed date and saved. `save()` runs schema validation before the
write (task required: empty string fails; dueDate must be a valid date), and
any thrown error lands in the catch block as 500 with the error message. -/
def postTodos (s : Store) (b : CreateBody) (freshId : String) (now : Nat)
    (storageFail : Option String) : Response × Store :=
  if taskFalsy b || dueFalsy b then
    ({ status := 400,
       body := .error "Task and due date are required"
         (some (if taskFalsy b then some "Task is required" else none,
                if dueFalsy b then some "Due date is required" else none))
         none }, s)
  else
    let t := jsTrim (b.task.getD "")
    if t == "" then
      ({ status := 500,
         body := .error "Failed to create todo" none
           (some "Todo validation failed: task: Task is required") }, s)
    else
      match b.dueDate.getD none with
      | none =>
        ({ status := 500,
           body := .error "Failed to create todo" none
             (some "Todo validation failed: dueDate: Cast to Date failed") }, s)
      | some dv =>
        match storageFail with
        | some msg =>
          ({ status := 500,
             body := .error "Failed to create todo" none (some msg) }, s)
        | none =>
          let todo : Todo :=
            { id := freshId, task := t, dueDate := dv, status := "pending",
              createdAt := now, updatedAt := now }
          ({ status := 201, body := .todoItem todo },
           { todos := s.todos ++ [todo] })

/-- Body of PUT /todos/:id. Each field is `none` when `undefined` in
`req.body`; `dueDate`, when present, carries its `new Date(...)` parse. -/
structure UpdateBody where
  task : Option String
  dueDate : Option (Option Int)
  status : Option String
deriving Repr, DecidableEq

/-- Casting plus the `runValidators : true` update validators of
`findByIdAndUpdate`: an Invalid Date in the update is a CastError, a
present-but-empty task fails the required validator. Both are raised while
issuing the query, independent of whether the document exists. -/
def updateValidationError (task : Option String) (dueDate : Option (Option Int)) :
    Option String :=
  match dueDate with
  | some none => some "Cast to Date failed for value Invalid Date at path dueDate"
  | _ =>
    match task with
    | some t => if t == "" then some "Validation failed: task: Task is required" else none
    | none => none

/-- Find a document by `_id`. -/
def findById (l : List Todo) (id : String) : Option Todo :=
  l.find? (fun t => t.id == id)

/-- Replace the document with the given `_id` (ids are unique in MongoDB,
so at most one is replaced). -/
def replaceById (l : List Todo) (id : String) (r : Todo) : List Todo :=
  match l with
  | [] => []
  | t :: ts => if t.id == id then r :: ts else t :: replaceById ts id r

/-- Remove the document with the given `_id`. -/
def removeById (l : List Todo) (id : String) : List Todo :=
  l.eraseP (fun t => t.id == id)

/-- Apply an update object to a found document: set the present paths, leave
the rest, and stamp `updatedAt` (schema option `timestamps : true`). -/
def applyUpdate (r : Todo) (task : Option String) (dueDate : Option Int)
    (status : Option String) (now : Nat) : Todo :=
  { r with
    task := task.getD r.task
    dueDate := dueDate.getD r.dueDate
    status := status.getD r.status
    updatedAt := now }

/-- The `findByIdAndUpdate` part of the PUT handler: validation/casting of
the update object first (thrown errors → catch block → 500), then, when the
storage is reachable, lookup by id — 404 when absent, otherwise the update
is applied and the new document returned with 200. -/
def putTodoExec (s : Store) (id : String) (b : UpdateBody) (now : Nat)
    (storageFail : Option String) : Response × Store :=
  match updateValidationError (b.task.map jsTrim) b.dueDate with
  | some msg =>
    ({ status := 500, body := .error "Failed to update todo" none (some msg) }, s)
  | none =>
    match storageFail with
    | some msg =>
      ({ status := 500, body := .error "Failed to update todo" none (some msg) }, s)
    | none =>
      match findById s.todos id with
      | none => ({ status := 404, body := .error "Todo not found" none none }, s)
      | some r =>
        let r2 := applyUpdate r (b.task.map jsTrim) b.dueDate.join b.status now
        ({ status := 200, body := .todoItem r2 },
         { todos := replaceById s.todos id r2 })

/-- PUT /todos/:id handler (server.js lines 105-152): malformed id → 400;
then the update object is assembled from the defined body fields, and a
status outside the enumeration returns 400 before any storage access;
otherwise `findByIdAndUpdate` runs. -/
def putTodo (s : Store) (id : String) (b : UpdateBody) (now : Nat)
    (storageFail : Option String) : Response × Store :=
  if !isValidId id then
    ({ status := 400, body := .error "Invalid todo ID format" none none }, s)
  else
    if b.status.any (fun st => !(st == "pending" || st == "completed")) then
      ({ status := 400, body := .error "Invalid status value" none none }, s)
    else
      putTodoExec s id b now storageFail

/-- DELETE /todos/:id handler (server.js lines 155-180): malformed id → 400;
storage failure → 500; unknown id → 404; otherwise the document is removed
and echoed back with a confirmation message. -/
def deleteTodo (s : Store) (id : String) (storageFail : Option String) :
    Response × Store :=
  if !isValidId id then
    ({ status := 400, body := .error "Invalid todo ID format" none none }, s)
  else
    match storageFail with
    | some msg =>
      ({ status := 500, body := .error "Failed to delete todo" none (some msg) }, s)
    | none =>
      match findById s.todos id with
      | none => ({ status := 404, body := .error "Todo not found" none none }, s)
      | some r =>
        ({ status := 200, body := .deleteOk "Todo deleted successfully" r },
         { todos := removeById s.todos id })

/-- Express error-handling middleware (server.js lines 200-206): 500, and
the error message is echoed only when NODE_ENV is development. -/
def errorMiddleware (nodeEnv : String) (errMsg : String) : Response :=
  { status := 500,
    body := .error "Internal server error" none
      (if nodeEnv == "development" then some errMsg else none) }

/-- The status flip computed by the client:
`todo.status === "pending" ? "completed" : "pending"`. -/
def flipStatus (st : String) : String :=
  if st == "pending" then "completed" else "pending"

/-- Client `TodoManager.toggleTodoStatus` (main.js lines 66-98) run against
a server state: look the id up in the local cache (`this.todos`), throw
"Todo not found" if absent, else PUT the flipped status; on a non-ok
response throw; on success overwrite the cached entry at `findIndex` with
the server's returned document. Returns the new cache and store. -/
def toggleTodoStatus (cache : List Todo) (s : Store) (id : String) (now : Nat) :
    Except String (List Todo × Store) :=
  match cache.find? (fun t => t.id == id) with
  | none => .error "Todo not found"
  | some todo =>
    let rs := putTodo s id
      { task := none, dueDate := none, status := some (flipStatus todo.status) } now none
    if 200 ≤ rs.1.status ∧ rs.1.status < 300 then
      match rs.1.body with
      | .todoItem updated =>
        let index := cache.findIdx (fun t => t.id == id)
        .ok ((if index < cache.length then cache.set index updated else cache), rs.2)
      | _ => .error "Failed to update todo status"
    else .error "Failed to update todo status"

end TodoApp

namespace TodoApp

/-- The sort comparator is transitive. -/
theorem todoLE_trans (a b c : Todo) (hab : todoLE a b = true) (hbc : todoLE b c = true) :
    todoLE a c = true := by
  simp only [todoLE, Bool.or_eq_true, Bool.and_eq_true, beq_iff_eq, decide_eq_true_eq] at *
  omega

/-- The sort comparator is total. -/
theorem todoLE_total (a b : Todo) : (todoLE a b || todoLE b a) = true := by
  simp only [todoLE, Bool.or_eq_true, Bool.and_eq_true, beq_iff_eq, decide_eq_true_eq]
  omega

/-- The comparator, read back as the intended ordering property. -/
theorem todoLE_imp {a b : Todo} (h : todoLE a b = true) :
    a.dueDate ≤ b.dueDate ∧ (a.dueDate = b.dueDate → b.createdAt ≤ a.createdAt) := by
  simp only [todoLE, Bool.or_eq_true, Bool.and_eq_true, beq_iff_eq, decide_eq_true_eq] at h
  constructor <;> omega

/-- C3: for every state of the collection, List answers 200 with all stored
tasks (a permutation of the collection), ordered by dueDate ascending and,
among equal dueDates, by createdAt descending (later-created first). -/
theorem list_sorted_by_dueDate_then_createdAt (s : Store) :
    (getTodos s none).status = 200 ∧
    ∃ l, (getTodos s none).body = .todoList l ∧ l.Perm s.todos ∧
      l.Pairwise (fun a b => a.dueDate ≤ b.dueDate ∧
        (a.dueDate = b.dueDate → b.createdAt ≤ a.createdAt)) := by
  refine ⟨rfl, sortTodos s.todos, rfl, List.mergeSort_perm _ _, ?_⟩
  exact (List.sorted_mergeSort todoLE_trans todoLE_total s.todos).imp todoLE_imp

/-- C4: an Update supplying a status outside {pending, completed} answers
HTTP 400 (either for the malformed id or for the invalid status, both
before any write) and leaves the collection unchanged. -/
theorem update_invalid_status_400_unchanged (s : Store) (id : String)
    (b : UpdateBody) (now : Nat) (sf : Option String) (st : String)
    (hst : b.status = some st) (hp : st ≠ "pending") (hc : st ≠ "completed") :
    (putTodo s id b now sf).1.status = 400 ∧ (putTodo s id b now sf).2 = s := by
  cases hv : isValidId id <;>
    simp [putTodo, hv, hst, Option.any, hp, hc]

/-- C4 witness: a concrete invalid-status update against a one-element
store: 400 and the store is untouched. -/
theorem update_invalid_status_400_unchanged_witness :
    (putTodo ⟨[⟨"0123456789abcdef01234567", "a", 3, "pending", 1, 1⟩]⟩
        "0123456789abcdef01234567" ⟨none, none, some "archived"⟩ 9 none).1.status = 400 ∧
    (putTodo ⟨[⟨"0123456789abcdef01234567", "a", 3, "pending", 1, 1⟩]⟩
        "0123456789abcdef01234567" ⟨none, none, some "archived"⟩ 9 none).2 =
      ⟨[⟨"0123456789abcdef01234567", "a", 3, "pending", 1, 1⟩]⟩ :=
  update_invalid_status_400_unchanged _ _ _ _ _ "archived" rfl
    (by decide) (by decide)

/-- C10: with a well-formed id and an invalid status, the PUT handler
answers 400 "Invalid status value" — not 404 — leaves the store unchanged,
and the response is computed before any storage access: it does not depend
on the store contents or on storage availability. -/
theorem update_status_checked_before_lookup (s : Store) (id : String)
    (b : UpdateBody) (now : Nat) (sf : Option String) (st : String)
    (hid : isValidId id = true) (hst : b.status = some st)
    (hp : st ≠ "pending") (hc : st ≠ "completed") :
    (putTodo s id b now sf).1 =
      { status := 400, body := .error "Invalid status value" none none } ∧
    (putTodo s id b now sf).1.status ≠ 404 ∧
    (putTodo s id b now sf).2 = s ∧
    ∀ (s2 : Store) (sf2 : Option String),
      (putTodo s2 id b now sf2).1 = (putTodo s id b now sf).1 := by
  have hmain : ∀ (s3 : Store) (sf3 : Option String),
      putTodo s3 id b now sf3 =
        ({ status := 400, body := .error "Invalid status value" none none }, s3) := by
    intro s3 sf3
    simp [putTodo, hid, hst, Option.any, hp, hc]
  refine ⟨by rw [hmain], by rw [hmain]; simp, by rw [hmain], ?_⟩
  intro s2 sf2
  rw [hmain, hmain]

/-- C10 witness: a well-formed id absent from an empty store with status
"archived" gets 400, not 404, independently of the store. -/
theorem update_status_checked_before_lookup_witness :
    (putTodo ⟨[]⟩ "0123456789abcdef01234567" ⟨none, none, some "archived"⟩ 0 none).1 =
      { status := 400, body := .error "Invalid status value" none none } ∧
    (putTodo ⟨[]⟩ "0123456789abcdef01234567" ⟨none, none, some "archived"⟩ 0 none).1.status ≠ 404 :=
  ⟨(update_status_checked_before_lookup ⟨[]⟩ _ _ 0 none "archived" (by decide) rfl
      (by decide) (by decide)).1,
   (update_status_checked_before_lookup ⟨[]⟩ _ _ 0 none "archived" (by decide) rfl
      (by decide) (by decide)).2.1⟩

end TodoApp

namespace TodoApp

/-- C2 counterexample: the task "  " is a non-empty string, so it passes the
handler's falsy check, but it trims to empty; `save()` then fails schema
validation and the catch block answers 500, not the claimed 400. -/
theorem create_whitespace_task_gives_500 :
    (postTodos ⟨[]⟩ ⟨some "  ", some (some 0)⟩ "0123456789abcdef01234567" 0 none).1.status = 500 ∧
    (postTodos ⟨[]⟩ ⟨some "  ", some (some 0)⟩ "0123456789abcdef01234567" 0 none).1.status ≠ 400 ∧
    (postTodos ⟨[]⟩ ⟨some "  ", some (some 0)⟩ "0123456789abcdef01234567" 0 none).2 = ⟨[]⟩ := by
  refine ⟨rfl, by decide, rfl⟩

/-- C2 amended: Create with a missing or empty-string task or a missing /
empty dueDate answers 400 with field-level details; Create with a
whitespace-only task (truthy, but empty after trimming) answers 500 from
the schema-validation error. In every such case nothing is persisted. -/
theorem create_invalid_input_rejected (s : Store) (b : CreateBody)
    (fid : String) (now : Nat) (sf : Option String)
    (h : taskFalsy b = true ∨ dueFalsy b = true ∨ jsTrim (b.task.getD "") = "") :
    (postTodos s b fid now sf).2 = s ∧
    ((taskFalsy b || dueFalsy b) = true →
      (postTodos s b fid now sf).1 =
        { status := 400,
          body := .error "Task and due date are required"
            (some (if taskFalsy b then some "Task is required" else none,
                   if dueFalsy b then some "Due date is required" else none))
            none }) ∧
    ((taskFalsy b || dueFalsy b) = false →
      (postTodos s b fid now sf).1.status = 500) := by
  cases hfb : (taskFalsy b || dueFalsy b) with
  | true =>
    refine ⟨?_, fun _ => ?_, fun hff => by simp [hfb] at hff⟩ <;>
      simp [postTodos, hfb]
  | false =>
    have htrim : jsTrim (b.task.getD "") = "" := by
      rcases h with h1 | h2 | h3
      · simp [h1] at hfb
      · simp [h2, Bool.or_eq_false_iff] at hfb
      · exact h3
    refine ⟨?_, fun htt => Bool.noConfusion htt, fun _ => ?_⟩ <;>
      simp [postTodos, hfb, htrim]

/-- C2 amended witness: a concrete missing-dueDate request answers 400 with
the dueDate detail and persists nothing. -/
theorem create_invalid_input_rejected_witness :
    (postTodos ⟨[]⟩ ⟨some "milk", none⟩ "0123456789abcdef01234567" 0 none).2 = ⟨[]⟩ ∧
    (postTodos ⟨[]⟩ ⟨some "milk", none⟩ "0123456789abcdef01234567" 0 none).1 =
      { status := 400,
        body := .error "Task and due date are required"
          (some (none, some "Due date is required")) none } := by
  have h := create_invalid_input_rejected ⟨[]⟩ ⟨some "milk", none⟩
    "0123456789abcdef01234567" 0 none (Or.inr (Or.inl (by decide)))
  exact ⟨h.1, by simpa using h.2.1 (by decide)⟩

/-- C9 counterexample: a storage failure in the POST handler is answered
with 500 whose body carries the underlying error message unconditionally —
the catch block consults no environment flag, so the detail is also sent
outside development mode, contradicting the claim that it is hidden. -/
theorem create_storage_error_detail_always_echoed :
    (postTodos ⟨[]⟩ ⟨some "milk", some (some 0)⟩ "0123456789abcdef01234567" 0
        (some "connection lost")).1 =
      { status := 500,
        body := .error "Failed to create todo" none (some "connection lost") } := by
  rfl

/-- C9 amended: unclassified persistence failures are answered with 500
everywhere; the development-mode gating of the error detail exists only in
the global error middleware (detail echoed iff NODE_ENV is development),
while the route handlers' catch blocks — GET, POST, PUT and DELETE alike —
always include the underlying error message, whatever the mode. -/
theorem storage_failure_500_detail_policy (env msg : String) (s : Store)
    (b : CreateBody) (fid : String) (now : Nat) (id : String) (ub : UpdateBody)
    (hb : (taskFalsy b || dueFalsy b) = false)
    (ht : jsTrim (b.task.getD "") ≠ "")
    (hd : b.dueDate.getD none ≠ none)
    (hid : isValidId id = true)
    (hust : ub.status.any (fun st => !(st == "pending" || st == "completed")) = false)
    (huval : updateValidationError (ub.task.map jsTrim) ub.dueDate = none) :
    (errorMiddleware env msg).status = 500 ∧
    ((errorMiddleware env msg).body =
        .error "Internal server error" none (some msg) ↔ env = "development") ∧
    getTodos s (some msg) = { status := 500, body := .error msg none none } ∧
    (postTodos s b fid now (some msg)).1 =
      { status := 500, body := .error "Failed to create todo" none (some msg) } ∧
    (putTodo s id ub now (some msg)).1 =
      { status := 500, body := .error "Failed to update todo" none (some msg) } ∧
    (deleteTodo s id (some msg)).1 =
      { status := 500, body := .error "Failed to delete todo" none (some msg) } := by
  obtain ⟨dv, hdv⟩ : ∃ dv, b.dueDate.getD none = some dv := by
    cases hcase : b.dueDate.getD none with
    | none => exact absurd hcase hd
    | some dv => exact ⟨dv, rfl⟩
  refine ⟨rfl, ?_, rfl, ?_, ?_, ?_⟩
  · constructor
    · intro hbody
      by_contra hne
      simp [errorMiddleware, hne] at hbody
    · intro henv
      simp [errorMiddleware, henv]
  · simp [postTodos, hb, ht, hdv]
  · have hust2 : ub.status.any (fun st => !st == "pending" && !st == "completed") = false := by
      simpa using hust
    simp [putTodo, putTodoExec, hid, hust2, huval]
  · simp [deleteTodo, hid]

/-- C9 amended witness: with NODE_ENV "production" the middleware hides the
detail while the handlers still echo it. -/
theorem storage_failure_500_detail_policy_witness :
    (errorMiddleware "production" "db down").status = 500 ∧
    ¬ ((errorMiddleware "production" "db down").body =
        .error "Internal server error" none (some "db down")) ∧
    (postTodos ⟨[]⟩ ⟨some "milk", some (some 0)⟩ "0123456789abcdef01234567" 0
        (some "db down")).1 =
      { status := 500, body := .error "Failed to create todo" none (some "db down") } ∧
    (putTodo ⟨[]⟩ "0123456789abcdef01234567" ⟨none, none, some "completed"⟩ 0
        (some "db down")).1 =
      { status := 500, body := .error "Failed to update todo" none (some "db down") } ∧
    (deleteTodo ⟨[]⟩ "0123456789abcdef01234567" (some "db down")).1 =
      { status := 500, body := .error "Failed to delete todo" none (some "db down") } := by
  have h := storage_failure_500_detail_policy "production" "db down" ⟨[]⟩
    ⟨some "milk", some (some 0)⟩ "0123456789abcdef01234567" 0
    "0123456789abcdef01234567" ⟨none, none, some "completed"⟩
    (by decide) (by decide) (by decide) (by decide) (by decide) rfl
  exact ⟨h.1, fun hc => by simpa using h.2.1.mp hc, h.2.2.2.1, h.2.2.2.2.1, h.2.2.2.2.2⟩

end TodoApp

namespace TodoApp

/-- C1: for every valid input (task non-empty after trimming, parseable
dueDate) with no already-stored record matching it, Create answers 201 and
a subsequent List contains exactly one record whose task and dueDate match
the input; that record carries status "pending", the assigned id and the
createdAt/updatedAt stamps. -/
theorem create_then_list_exactly_one (s : Store) (tk : String) (d : Int)
    (fid : String) (now : Nat)
    (ht : jsTrim tk ≠ "")
    (hnew : ∀ r ∈ s.todos, ¬ (r.task = jsTrim tk ∧ r.dueDate = d)) :
    ∃ resp s2, postTodos s ⟨some tk, some (some d)⟩ fid now none = (resp, s2) ∧
      resp.status = 201 ∧
      ∃ l, getTodos s2 none = { status := 200, body := .todoList l } ∧
        l.countP (fun r => r.task == jsTrim tk && r.dueDate == d) = 1 ∧
        ∃ r, r ∈ l ∧ r.task = jsTrim tk ∧ r.dueDate = d ∧ r.status = "pending" ∧
          r.id = fid ∧ r.createdAt = now ∧ r.updatedAt = now := by
  have htk : tk ≠ "" := by
    intro h0
    exact ht (by rw [h0]; rfl)
  have hpost : postTodos s ⟨some tk, some (some d)⟩ fid now none =
      ({ status := 201, body := .todoItem ⟨fid, jsTrim tk, d, "pending", now, now⟩ },
       ⟨s.todos ++ [⟨fid, jsTrim tk, d, "pending", now, now⟩]⟩) := by
    simp [postTodos, taskFalsy, dueFalsy, htk, ht]
  have hget : getTodos ⟨s.todos ++ [⟨fid, jsTrim tk, d, "pending", now, now⟩]⟩ none =
      { status := 200,
        body := .todoList (sortTodos (s.todos ++ [⟨fid, jsTrim tk, d, "pending", now, now⟩])) } :=
    rfl
  refine ⟨_, _, hpost, rfl,
    sortTodos (s.todos ++ [⟨fid, jsTrim tk, d, "pending", now, now⟩]), hget, ?_, ?_⟩
  · unfold sortTodos
    rw [(List.mergeSort_perm _ todoLE).countP_eq]
    rw [List.countP_append]
    have h0 : List.countP (fun r => r.task == jsTrim tk && r.dueDate == d) s.todos = 0 := by
      rw [List.countP_eq_zero]
      intro a ha
      simpa using hnew a ha
    simp [h0, List.countP_cons]
  · refine ⟨⟨fid, jsTrim tk, d, "pending", now, now⟩, ?_, rfl, rfl, rfl, rfl, rfl, rfl⟩
    unfold sortTodos
    rw [(List.mergeSort_perm _ todoLE).mem_iff]
    simp

/-- C1 witness: creating " milk " due at 42 in the empty store and listing
gives exactly the one matching pending record. -/
theorem create_then_list_exactly_one_witness :
    jsTrim " milk " ≠ "" ∧
    ∃ resp s2, postTodos ⟨[]⟩ ⟨some " milk ", some (some 42)⟩
        "0123456789abcdef01234567" 7 none = (resp, s2) ∧
      resp.status = 201 ∧
      ∃ l, getTodos s2 none = { status := 200, body := .todoList l } ∧
        l.countP (fun r => r.task == jsTrim " milk " && r.dueDate == 42) = 1 ∧
        ∃ r, r ∈ l ∧ r.task = jsTrim " milk " ∧ r.dueDate = 42 ∧ r.status = "pending" ∧
          r.id = "0123456789abcdef01234567" ∧ r.createdAt = 7 ∧ r.updatedAt = 7 :=
  ⟨by decide,
   create_then_list_exactly_one ⟨[]⟩ " milk " 42 "0123456789abcdef01234567" 7
     (by decide) (by simp)⟩

/-- C5 counterexample: an Update with a well-formed id absent from the
store but an invalid status value answers 400 (invalid status), not the
claimed 404. -/
theorem update_missing_id_invalid_status_not_404 :
    (putTodo ⟨[]⟩ "0123456789abcdef01234567" ⟨none, none, some "archived"⟩ 0 none).1.status = 400 ∧
    (putTodo ⟨[]⟩ "0123456789abcdef01234567" ⟨none, none, some "archived"⟩ 0 none).1.status ≠ 404 :=
  ⟨rfl, by decide⟩

/-- C5 amended: for Update and Delete a syntactically invalid id always
answers 400 with the collection unchanged; a well-formed id matching no
record answers 404 with the collection unchanged for Delete always, and for
Update provided the body passes its checks (status, when present, one of
the two enumerated values, and the update object passing cast/validation) —
an invalid status is answered 400 before the existence check. -/
theorem update_delete_id_error_paths (s : Store) (id : String) (b : UpdateBody)
    (now : Nat) (sf : Option String) :
    (isValidId id = false →
      putTodo s id b now sf =
        ({ status := 400, body := .error "Invalid todo ID format" none none }, s) ∧
      deleteTodo s id sf =
        ({ status := 400, body := .error "Invalid todo ID format" none none }, s)) ∧
    (isValidId id = true → findById s.todos id = none →
      deleteTodo s id none =
        ({ status := 404, body := .error "Todo not found" none none }, s) ∧
      (b.status.any (fun st => !(st == "pending" || st == "completed")) = false →
       updateValidationError (b.task.map jsTrim) b.dueDate = none →
       putTodo s id b now none =
        ({ status := 404, body := .error "Todo not found" none none }, s))) := by
  constructor
  · intro hv
    constructor <;> simp [putTodo, deleteTodo, hv]
  · intro hv hfind
    constructor
    · simp [deleteTodo, hv, hfind]
    · intro hstat hval
      simp [putTodo, putTodoExec, hv, hstat, hval, hfind]
      simpa using hstat

/-- C5 amended witness: a malformed id answers 400; a well-formed id on the
empty store answers 404, for both handlers. -/
theorem update_delete_id_error_paths_witness :
    putTodo ⟨[]⟩ "zz" ⟨none, none, none⟩ 0 none =
      ({ status := 400, body := .error "Invalid todo ID format" none none }, ⟨[]⟩) ∧
    putTodo ⟨[]⟩ "0123456789abcdef01234567" ⟨none, none, none⟩ 0 none =
      ({ status := 404, body := .error "Todo not found" none none }, ⟨[]⟩) ∧
    deleteTodo ⟨[]⟩ "0123456789abcdef01234567" none =
      ({ status := 404, body := .error "Todo not found" none none }, ⟨[]⟩) :=
  ⟨((update_delete_id_error_paths ⟨[]⟩ "zz" ⟨none, none, none⟩ 0 none).1 (by decide)).1,
   ((update_delete_id_error_paths ⟨[]⟩ "0123456789abcdef01234567" ⟨none, none, none⟩ 0
      none).2 (by decide) rfl).2 rfl rfl,
   ((update_delete_id_error_paths ⟨[]⟩ "0123456789abcdef01234567" ⟨none, none, none⟩ 0
      none).2 (by decide) rfl).1⟩

end TodoApp

namespace TodoApp

/-- Replacing the document with a different id keeps every other document
in the collection. -/
theorem mem_replaceById_of_ne {l : List Todo} {id : String} {r u : Todo}
    (hu : u ∈ l) (hne : u.id ≠ id) : u ∈ replaceById l id r := by
  induction l with
  | nil => cases hu
  | cons t ts ih =>
    rcases List.mem_cons.mp hu with rfl | h2
    · have hf : (u.id == id) = false := beq_eq_false_iff_ne.mpr hne
      simp [replaceById, hf]
    · by_cases htid : t.id = id
      · simp only [replaceById, htid, beq_self_eq_true, if_true]
        exact List.mem_cons_of_mem _ h2
      · have hf : (t.id == id) = false := beq_eq_false_iff_ne.mpr htid
        simp only [replaceById, hf, Bool.false_eq_true, if_false]
        exact List.mem_cons_of_mem _ (ih h2)

/-- C6: a successful partial Update changes exactly the supplied fields of
the stored record: the id and createdAt are kept, each absent field keeps
its prior value (so omitting task or dueDate never clears them), each
present field takes the supplied value (task trimmed), and every other
stored record survives untouched. -/
theorem update_partial_frame (s : Store) (id : String) (b : UpdateBody)
    (now : Nat) (r : Todo)
    (hid : isValidId id = true)
    (hfind : findById s.todos id = some r)
    (hstatus : ∀ st, b.status = some st → st = "pending" ∨ st = "completed")
    (htask : ∀ x, b.task = some x → jsTrim x ≠ "")
    (hdue : ∀ p, b.dueDate = some p → p ≠ none) :
    ∃ r2, putTodo s id b now none =
        ({ status := 200, body := .todoItem r2 },
         { todos := replaceById s.todos id r2 }) ∧
      r2.id = r.id ∧ r2.createdAt = r.createdAt ∧
      (b.task = none → r2.task = r.task) ∧
      (∀ x, b.task = some x → r2.task = jsTrim x) ∧
      (b.dueDate = none → r2.dueDate = r.dueDate) ∧
      (∀ p, b.dueDate = some p → ∃ dv, p = some dv ∧ r2.dueDate = dv) ∧
      (b.status = none → r2.status = r.status) ∧
      (∀ st, b.status = some st → r2.status = st) ∧
      ∀ u ∈ s.todos, u.id ≠ id → u ∈ replaceById s.todos id r2 := by
  have hstat : (b.status.any (fun st => !(st == "pending" || st == "completed"))) = false := by
    cases hbs : b.status with
    | none => rfl
    | some st =>
      rcases hstatus st hbs with h1 | h1 <;> simp [h1, Option.any]
  have hval : updateValidationError (b.task.map jsTrim) b.dueDate = none := by
    cases hbd : b.dueDate with
    | none =>
      cases hbt : b.task with
      | none => rfl
      | some x =>
        have := htask x hbt
        simp [updateValidationError, this]
    | some p =>
      cases p with
      | none => exact absurd rfl (hdue none hbd)
      | some dv =>
        cases hbt : b.task with
        | none => rfl
        | some x =>
          have := htask x hbt
          simp [updateValidationError, this]
  refine ⟨applyUpdate r (b.task.map jsTrim) b.dueDate.join b.status now, ?_, rfl, rfl,
    ?_, ?_, ?_, ?_, ?_, ?_, ?_⟩
  · simp [putTodo, putTodoExec, hid, hstat, hval, hfind]
    simpa using hstat
  · intro hbt; simp [applyUpdate, hbt]
  · intro x hbt; simp [applyUpdate, hbt]
  · intro hbd; simp [applyUpdate, hbd, Option.join]
  · intro p hbd
    obtain ⟨dv, rfl⟩ : ∃ dv, p = some dv := by
      cases p with
      | none => exact absurd rfl (hdue none hbd)
      | some dv => exact ⟨dv, rfl⟩
    exact ⟨dv, rfl, by simp [applyUpdate, hbd, Option.join]⟩
  · intro hbs; simp [applyUpdate, hbs]
  · intro st hbs; simp [applyUpdate, hbs]
  · intro u hu hne
    exact mem_replaceById_of_ne hu hne

/-- C6 witness: updating only the status of a stored record keeps its task,
dueDate, id and createdAt. -/
theorem update_partial_frame_witness :
    ∃ r2, putTodo ⟨[⟨"0123456789abcdef01234567", "milk", 3, "pending", 1, 1⟩]⟩
        "0123456789abcdef01234567" ⟨none, none, some "completed"⟩ 9 none =
        ({ status := 200, body := .todoItem r2 },
         { todos := replaceById [⟨"0123456789abcdef01234567", "milk", 3, "pending", 1, 1⟩]
             "0123456789abcdef01234567" r2 }) ∧
      r2.id = "0123456789abcdef01234567" ∧ r2.createdAt = 1 ∧
      r2.task = "milk" ∧ r2.dueDate = 3 ∧ r2.status = "completed" := by
  obtain ⟨r2, heq, hid2, hca, htk, -, hdd, -, -, hst, -⟩ :=
    update_partial_frame ⟨[⟨"0123456789abcdef01234567", "milk", 3, "pending", 1, 1⟩]⟩
      "0123456789abcdef01234567" ⟨none, none, some "completed"⟩ 9
      ⟨"0123456789abcdef01234567", "milk", 3, "pending", 1, 1⟩
      (by decide) rfl
      (fun st h => by cases h; exact Or.inr rfl)
      (fun x h => by cases h)
      (fun p h => by cases h)
  exact ⟨r2, heq, hid2, hca, htk rfl, hdd rfl, hst "completed" rfl⟩

end TodoApp

namespace TodoApp

/-- With distinct ids, removing a document by id leaves no document with
that id behind. -/
theorem mem_removeById_ne {l : List Todo} {id : String}
    (hnd : (l.map Todo.id).Nodup) : ∀ u ∈ removeById l id, u.id ≠ id := by
  induction l with
  | nil => intro u hu; cases hu
  | cons t ts ih =>
    rw [List.map_cons, List.nodup_cons] at hnd
    intro u hu
    rw [removeById, List.eraseP_cons] at hu
    by_cases hp : t.id = id
    · have hbt : (t.id == id) = true := beq_iff_eq.mpr hp
      simp only [hbt, cond_true] at hu
      intro hueq
      exact hnd.1 (by rw [hp, ← hueq]; exact List.mem_map_of_mem _ hu)
    · have hbt : (t.id == id) = false := beq_eq_false_iff_ne.mpr hp
      simp only [hbt, cond_false] at hu
      rcases List.mem_cons.mp hu with rfl | h2
      · exact hp
      · exact ih hnd.2 u h2

/-- C8: deleting an existing id answers 200 with the confirmation message
and the record's contents as they were before deletion, and the subsequent
List no longer contains any record with that id. -/
theorem delete_existing_removes_and_echoes (s : Store) (id : String) (r : Todo)
    (hid : isValidId id = true)
    (hfind : findById s.todos id = some r)
    (hnd : (s.todos.map Todo.id).Nodup) :
    deleteTodo s id none =
      ({ status := 200, body := .deleteOk "Todo deleted successfully" r },
       { todos := removeById s.todos id }) ∧
    ∃ l, getTodos ⟨removeById s.todos id⟩ none = { status := 200, body := .todoList l } ∧
      ∀ u ∈ l, u.id ≠ id := by
  refine ⟨by simp [deleteTodo, hid, hfind], sortTodos (removeById s.todos id), rfl, ?_⟩
  intro u hu
  rw [sortTodos] at hu
  exact mem_removeById_ne hnd u (((List.mergeSort_perm _ todoLE).mem_iff).mp hu)

/-- C8 witness: deleting the only stored record echoes it and empties the
listing. -/
theorem delete_existing_removes_and_echoes_witness :
    deleteTodo ⟨[⟨"0123456789abcdef01234567", "milk", 3, "pending", 1, 1⟩]⟩
        "0123456789abcdef01234567" none =
      ({ status := 200,
         body := .deleteOk "Todo deleted successfully"
           ⟨"0123456789abcdef01234567", "milk", 3, "pending", 1, 1⟩ },
       { todos := removeById [⟨"0123456789abcdef01234567", "milk", 3, "pending", 1, 1⟩]
           "0123456789abcdef01234567" }) ∧
    ∃ l, getTodos ⟨removeById [⟨"0123456789abcdef01234567", "milk", 3, "pending", 1, 1⟩]
          "0123456789abcdef01234567"⟩ none = { status := 200, body := .todoList l } ∧
      ∀ u ∈ l, u.id ≠ "0123456789abcdef01234567" :=
  delete_existing_removes_and_echoes
    ⟨[⟨"0123456789abcdef01234567", "milk", 3, "pending", 1, 1⟩]⟩
    "0123456789abcdef01234567"
    ⟨"0123456789abcdef01234567", "milk", 3, "pending", 1, 1⟩
    (by decide) rfl (by simp)

end TodoApp

namespace TodoApp

/-- Overwriting the cache entry at `findIndex` with a record that still
satisfies the search leaves `find` returning the new record. -/
theorem find_set_findIdx {l : List Todo} {p : Todo → Bool} {t r2 : Todo}
    (h : l.find? p = some t) (hr2 : p r2 = true) :
    (l.set (l.findIdx p) r2).find? p = some r2 := by
  induction l with
  | nil => cases h
  | cons a as ih =>
    by_cases hp : p a = true
    · simp [List.findIdx_cons, hp, List.find?_cons, hr2]
    · have hpf : p a = false := Bool.eq_false_iff.mpr hp
      rw [List.find?_cons, hpf] at h
      simp only [List.findIdx_cons, hpf, cond_false, List.set_cons_succ]
      rw [List.find?_cons, hpf]
      exact ih h

/-- Replacing the stored document by id with a record carrying the same id
leaves the id lookup returning the replacement. -/
theorem findById_replaceById {l : List Todo} {id : String} {r2 : Todo}
    (h : (findById l id).isSome) (hr2 : r2.id = id) :
    findById (replaceById l id r2) id = some r2 := by
  induction l with
  | nil => simp [findById] at h
  | cons a as ih =>
    by_cases hp : a.id = id
    · have hbt : (a.id == id) = true := beq_iff_eq.mpr hp
      simp [replaceById, hbt, findById, List.find?_cons, beq_iff_eq, hr2]
    · have hbt : (a.id == id) = false := beq_eq_false_iff_ne.mpr hp
      rw [findById, List.find?_cons] at h
      rw [hbt] at h
      simp only [replaceById, hbt, Bool.false_eq_true, if_false]
      rw [findById, List.find?_cons, hbt]
      exact ih h

/-- One round of the client toggle against the server: with the id cached,
stored and well-formed, the PUT succeeds and both the cache entry and the
stored document become the found record with the flipped cached status. -/
theorem toggle_step (cache : List Todo) (s : Store) (id : String) (now : Nat)
    (t r : Todo)
    (hc : cache.find? (fun u => u.id == id) = some t)
    (hr : findById s.todos id = some r)
    (hid : isValidId id = true) :
    toggleTodoStatus cache s id now =
      .ok (cache.set (cache.findIdx (fun u => u.id == id))
             (applyUpdate r none none (some (flipStatus t.status)) now),
           ⟨replaceById s.todos id
             (applyUpdate r none none (some (flipStatus t.status)) now)⟩) := by
  have hflip : (flipStatus t.status == "pending" || flipStatus t.status == "completed") = true := by
    by_cases h : t.status = "pending" <;> simp [flipStatus, h]
  have hput : putTodo s id ⟨none, none, some (flipStatus t.status)⟩ now none =
      ({ status := 200,
         body := .todoItem (applyUpdate r none none (some (flipStatus t.status)) now) },
       ⟨replaceById s.todos id (applyUpdate r none none (some (flipStatus t.status)) now)⟩) := by
    have hsv : ((fun st => !(st == "pending" || st == "completed")) (flipStatus t.status)) = false := by
      simp [hflip]
    simp [putTodo, putTodoExec, hid, updateValidationError, hr, Option.any, hsv,
      Option.join, hflip]
  have hpt := List.find?_some hc
  have hidx : cache.findIdx (fun u => u.id == id) < cache.length :=
    List.findIdx_lt_length_of_exists ⟨t, List.mem_of_find?_eq_some hc, hpt⟩
  simp only [toggleTodoStatus, hc, hput, hidx, if_true]
  norm_num

/-- C7: the toggle is involutive: for a task cached with status pending or
completed, whose id is well-formed and stored, toggling twice brings the
cached task's status back to its original value. -/
theorem toggle_status_involutive (cache : List Todo) (s : Store) (id : String)
    (now1 now2 : Nat) (t : Todo)
    (hc : cache.find? (fun u => u.id == id) = some t)
    (hst : t.status = "pending" ∨ t.status = "completed")
    (hid : isValidId id = true)
    (hs : (findById s.todos id).isSome) :
    ∃ c2 s2 c3 s3,
      toggleTodoStatus cache s id now1 = .ok (c2, s2) ∧
      toggleTodoStatus c2 s2 id now2 = .ok (c3, s3) ∧
      ∃ t3, c3.find? (fun u => u.id == id) = some t3 ∧ t3.status = t.status := by
  obtain ⟨r, hr⟩ := Option.isSome_iff_exists.mp hs
  have hpr := List.find?_some hr
  have hrid : r.id = id := beq_iff_eq.mp hpr
  set r2 := applyUpdate r none none (some (flipStatus t.status)) now1 with hr2def
  have hr2id : r2.id = id := hrid
  have h1 := toggle_step cache s id now1 t r hc hr hid
  have hc2 : (cache.set (cache.findIdx (fun u => u.id == id)) r2).find?
      (fun u => u.id == id) = some r2 :=
    find_set_findIdx hc (beq_iff_eq.mpr hr2id)
  have hs2 : findById (replaceById s.todos id r2) id = some r2 :=
    findById_replaceById (by rw [hr]; rfl) hr2id
  set r3 := applyUpdate r2 none none (some (flipStatus r2.status)) now2 with hr3def
  have h2 := toggle_step (cache.set (cache.findIdx (fun u => u.id == id)) r2)
    ⟨replaceById s.todos id r2⟩ id now2 r2 r2 hc2 hs2 hid
  have hc3 : ((cache.set (cache.findIdx (fun u => u.id == id)) r2).set
      ((cache.set (cache.findIdx (fun u => u.id == id)) r2).findIdx (fun u => u.id == id))
      r3).find? (fun u => u.id == id) = some r3 :=
    find_set_findIdx hc2 (beq_iff_eq.mpr (show r3.id = id from hr2id))
  refine ⟨_, _, _, _, h1, h2, r3, hc3, ?_⟩
  have : r2.status = flipStatus t.status := rfl
  rcases hst with h | h <;>
    simp [hr3def, applyUpdate, this, flipStatus, h]

/-- C7 witness: toggling the only stored pending task twice brings its
cached status back to "pending". -/
theorem toggle_status_involutive_witness :
    ∃ c2 s2 c3 s3,
      toggleTodoStatus [⟨"0123456789abcdef01234567", "milk", 3, "pending", 1, 1⟩]
        ⟨[⟨"0123456789abcdef01234567", "milk", 3, "pending", 1, 1⟩]⟩
        "0123456789abcdef01234567" 7 = .ok (c2, s2) ∧
      toggleTodoStatus c2 s2 "0123456789abcdef01234567" 8 = .ok (c3, s3) ∧
      ∃ t3, c3.find? (fun u => u.id == "0123456789abcdef01234567") = some t3 ∧
        t3.status = "pending" :=
  toggle_status_involutive
    [⟨"0123456789abcdef01234567", "milk", 3, "pending", 1, 1⟩]
    ⟨[⟨"0123456789abcdef01234567", "milk", 3, "pending", 1, 1⟩]⟩
    "0123456789abcdef01234567" 7 8
    ⟨"0123456789abcdef01234567", "milk", 3, "pending", 1, 1⟩
    rfl (Or.inl rfl) (by decide) rfl

end TodoApp
